import Mathlib

/-!
Verification of the Assinafy contract-signature core of the event-management
repository: the contract record (db schema), the webhook receiver
(`apps/web/src/app/api/webhooks/assinafy/route.ts`), the request-signatures
orchestration (`api/contracts/[contractId]/request-signatures/route.ts`) and
the send-to-Assinafy submission (`api/contracts/[id]/send-to-assinafy/route.ts`)
are embedded as executable Lean functions, and the spec's testable properties
are settled against them.
-/

namespace Check

/-- The fields of the `contracts` table used by the signature core
(schema in `lib/db/schema.ts`).  `status` is the internal status
(default `'uploaded'`); the `assinafy*` columns and `signedAt` are nullable.
Timestamps are modelled as `Nat`. -/
structure Contract where
  id : Nat
  uploadedByUserId : Option String
  fileName : String
  filePath : String
  status : String
  signedAt : Option Nat
  assinafyDocumentId : Option String
  assinafyStatus : Option String
  assinafyOriginalUrl : Option String
  assinafyCertificatedUrl : Option String
  assinafySignatureRequestId : Option String
  deriving DecidableEq

/-- A JSON-ish object carrying exactly the fields the webhook route reads:
the event-type aliases (`event`, `event_type`, `type`), the containers
(`data`, `document`), the document-id and status aliases, and the two
certificated-artifact URL locations (`artifacts.certificated`,
`download_urls.certificated`). -/
inductive JObj : Type where
  | mk (event event_type type : Option String)
       (data document : Option JObj)
       (id document_id status current_status : Option String)
       (artifactsCertificated downloadUrlsCertificated : Option String) : JObj

def JObj.event : JObj → Option String
  | .mk e _ _ _ _ _ _ _ _ _ _ => e

def JObj.event_type : JObj → Option String
  | .mk _ e _ _ _ _ _ _ _ _ _ => e

def JObj.type : JObj → Option String
  | .mk _ _ e _ _ _ _ _ _ _ _ => e

def JObj.data : JObj → Option JObj
  | .mk _ _ _ d _ _ _ _ _ _ _ => d

def JObj.document : JObj → Option JObj
  | .mk _ _ _ _ d _ _ _ _ _ _ => d

def JObj.id : JObj → Option String
  | .mk _ _ _ _ _ i _ _ _ _ _ => i

def JObj.document_id : JObj → Option String
  | .mk _ _ _ _ _ _ i _ _ _ _ => i

def JObj.status : JObj → Option String
  | .mk _ _ _ _ _ _ _ s _ _ _ => s

def JObj.current_status : JObj → Option String
  | .mk _ _ _ _ _ _ _ _ s _ _ => s

def JObj.artifactsCertificated : JObj → Option String
  | .mk _ _ _ _ _ _ _ _ _ a _ => a

def JObj.downloadUrlsCertificated : JObj → Option String
  | .mk _ _ _ _ _ _ _ _ _ _ a => a

/-- JavaScript truthiness of a string-valued expression: absent
(`undefined`/`null`) and the empty string are falsy. -/
def strTruthy : Option String → Bool
  | some s => !s.isEmpty
  | none => false

/-- JavaScript `a || b` on string-valued expressions. -/
def jsOr (a b : Option String) : Option String :=
  if strTruthy a then a else b

/-- Collapse a JS string-or-undefined to `some` exactly when truthy, so that
`none` marks every falsy outcome. -/
def jsNorm (a : Option String) : Option String :=
  if strTruthy a then a else none

/-- `payload.event || payload.event_type || payload.type` (webhook route). -/
def extractEventType (p : JObj) : Option String :=
  jsNorm (jsOr p.event (jsOr p.event_type p.type))

/-- `const documentDataContainer = payload.data || payload;`
`const documentInfo = documentDataContainer?.document || documentDataContainer;`
(objects are truthy, so the fallbacks fire only on absence). -/
def documentInfo (p : JObj) : JObj :=
  let container := p.data.getD p
  container.document.getD container

/-- `documentInfo.id || documentInfo.document_id`. -/
def extractDocId (info : JObj) : Option String :=
  jsNorm (jsOr info.id info.document_id)

/-- `documentInfo.status || documentInfo.current_status`. -/
def extractStatus (info : JObj) : Option String :=
  jsNorm (jsOr info.status info.current_status)

/-- `documentInfo.artifacts?.certificated || documentInfo.download_urls?.certificated`. -/
def extractCertUrl (info : JObj) : Option String :=
  jsNorm (jsOr info.artifactsCertificated info.downloadUrlsCertificated)

/-- The event families of the webhook route's `switch (eventType.toLowerCase())`. -/
inductive EventFamily where
  | viewed | signerSigned | completion | rejection | expiry | cancellation | failure | other
  deriving DecidableEq

/-- `eventType.toLowerCase()`: character-wise ASCII lower-casing (the mapped
event names are all ASCII). -/
def lowerAscii (s : String) : String := ⟨s.data.map Char.toLower⟩

/-- Dispatch of the lower-cased event type to its `switch` case. -/
def classify (e : String) : EventFamily :=
  if e = "document_viewed_by_signer" then .viewed
  else if e = "signer_signed_document" ∨ e = "document_signed" then .signerSigned
  else if e = "document_ready" ∨ e = "process_completed" ∨ e = "document_certificated" then
    .completion
  else if e = "document_rejected" ∨ e = "signer_rejected_document" then .rejection
  else if e = "document_expired" then .expiry
  else if e = "document_cancelled" ∨ e = "rejected_by_user" then .cancellation
  else if e = "document_processing_failed" ∨ e = "failed" then .failure
  else .other

/-- The `updateData` object built by the webhook route (besides the
always-present `updatedAt`); a `none` field was not assigned. -/
structure UpdateData where
  assinafyStatus : Option String
  status : Option String
  signedAt : Option Nat
  assinafyCertificatedUrl : Option String
  deriving DecidableEq

/-- One case of the webhook route's `switch`, given the current contract row
`c`, the normalized payload status and certificated URL, and the current time.
`none` is the `default` branch's early `return` (present payload status equal
to the stored one, or no payload status at all).  The pre-switch
`if (assinafyCurrentStatus) updateData.assinafyStatus = assinafyCurrentStatus`
is the `curStatus` seed of `ud0`. -/
def mapEvent (fam : EventFamily) (c : Contract) (curStatus certUrl : Option String)
    (now : Nat) : Option UpdateData :=
  let ud0 : UpdateData :=
    { assinafyStatus := curStatus, status := none, signedAt := none
      assinafyCertificatedUrl := none }
  match fam with
  | .viewed =>
      some (match curStatus with
        | some s => if c.assinafyStatus ≠ some s then { ud0 with assinafyStatus := some s } else ud0
        | none => ud0)
  | .signerSigned =>
      some { ud0 with assinafyStatus := some (curStatus.getD "pending_signature")
                      status := some "pending_assinaturas" }
  | .completion =>
      some { ud0 with assinafyStatus := some (curStatus.getD "certificated")
                      status := some "signed"
                      signedAt := some now
                      assinafyCertificatedUrl := certUrl }
  | .rejection =>
      some { ud0 with assinafyStatus := some (curStatus.getD "rejected_by_signer")
                      status := some "rejected" }
  | .expiry =>
      some { ud0 with assinafyStatus := some (curStatus.getD "expired")
                      status := some "expired" }
  | .cancellation =>
      some { ud0 with assinafyStatus := some (curStatus.getD "cancelled")
                      status := some "cancelled" }
  | .failure =>
      some { ud0 with assinafyStatus := some (curStatus.getD "failed")
                      status := some "error_signature_provider" }
  | .other =>
      match curStatus with
      | some s => if c.assinafyStatus ≠ some s then some ud0 else none
      | none => none

/-- The webhook route's `updateData` after the `switch` on the lower-cased
event type `e`. -/
def computeUpdate (c : Contract) (e : String) (curStatus certUrl : Option String)
    (now : Nat) : Option UpdateData :=
  mapEvent (classify e) c curStatus certUrl now

/-- `Object.keys(updateData).length > 1`: some field besides `updatedAt` was
assigned. -/
def hasChanges (ud : UpdateData) : Bool :=
  ud.assinafyStatus.isSome || ud.status.isSome || ud.signedAt.isSome ||
    ud.assinafyCertificatedUrl.isSome

/-- Apply `db.update(contracts).set(updateData)` to one row: assigned fields
overwrite, unassigned fields keep their stored value. -/
def applyUpdate (ud : UpdateData) (c : Contract) : Contract :=
  { c with
    assinafyStatus := match ud.assinafyStatus with
      | some v => some v
      | none => c.assinafyStatus
    status := ud.status.getD c.status
    signedAt := match ud.signedAt with
      | some v => some v
      | none => c.signedAt
    assinafyCertificatedUrl := match ud.assinafyCertificatedUrl with
      | some v => some v
      | none => c.assinafyCertificatedUrl }

/-- `.where(eq(contracts.id, contractToUpdate.id))`: every row with the given
id receives the update. -/
def updateStore (store : List Contract) (cid : Nat) (ud : UpdateData) : List Contract :=
  store.map fun x => if x.id = cid then applyUpdate ud x else x

/-- The webhook route's HTTP outcomes: `400` for an unextractable payload,
`200` for everything else (unknown document, unmapped event without a status
change, processed event). -/
inductive WebhookResponse where
  | badRequest | okNotFound | okNoChange | okProcessed
  deriving DecidableEq

/-- `200 OK` responses. -/
def WebhookResponse.isSuccess : WebhookResponse → Bool
  | .badRequest => false
  | _ => true

structure WebhookResult where
  response : WebhookResponse
  warnings : Nat
  store : List Contract
  deriving DecidableEq

/-- `SELECT ... WHERE assinafy_document_id = ? LIMIT 1`. -/
def findByDocId (store : List Contract) (d : String) : Option Contract :=
  store.find? fun c => c.assinafyDocumentId == some d

/-- The webhook route `POST` (first revision of
`api/webhooks/assinafy/route.ts`): extract the event type and document id
(400 when either is falsy), look the contract up by Assinafy document id
(200 + warning when absent), run the status mapping `switch`, and persist the
update only when some field besides `updatedAt` was assigned.  `warnings`
counts `console.warn` calls (unknown document, and the `default` branch). -/
def processWebhook (store : List Contract) (p : JObj) (now : Nat) : WebhookResult :=
  match extractEventType p with
  | none => ⟨.badRequest, 0, store⟩
  | some et =>
    let info := documentInfo p
    match extractDocId info with
    | none => ⟨.badRequest, 0, store⟩
    | some docId =>
      match findByDocId store docId with
      | none => ⟨.okNotFound, 1, store⟩
      | some c =>
        let curStatus := extractStatus info
        let certUrl := extractCertUrl info
        let e := lowerAscii et
        match computeUpdate c e curStatus certUrl now with
        | none => ⟨.okNoChange, 1, store⟩
        | some ud =>
          if hasChanges ud then
            ⟨.okProcessed, if classify e = .other then 1 else 0, updateStore store c.id ud⟩
          else
            ⟨.okProcessed, 0, store⟩

/-- A `{fullName, email}` signer descriptor (`signerSchema`). -/
structure Signer where
  fullName : String
  email : String
  deriving DecidableEq

/-- Outbound calls to the Assinafy provider, recorded in order. -/
inductive ProviderCall where
  | createSigner (fullName email : String)
  | createAssignment (documentId : String) (signerIds : List String)
  | uploadDocument (fileName : String)
  deriving DecidableEq

/-- A successful `POST /accounts/{acc}/documents` response body
(`assinafyData.data`). -/
structure UploadResult where
  id : String
  status : String
  originalUrl : Option String
  deriving DecidableEq

/-- Outcome of the document-upload call: the `fetch` itself throws
(`netError`, answered 502), the provider answers non-success
(`providerError`, the provider's status is surfaced), or success. -/
inductive UploadOutcome where
  | netError | providerError | ok (r : UploadResult)
  deriving DecidableEq

/-- The external Assinafy service and its configuration, supplied as an
oracle: `configured` models the three `ASSINAFY_*` environment variables
being present; `createSigner`/`createAssignment` return `some id` exactly
when the call succeeds with `status === 200` and a usable `data.id`. -/
structure ProviderEnv where
  configured : Bool
  createSigner : String → String → Option String
  createAssignment : String → List String → Option String
  uploadDocument : String → UploadOutcome

/-- The HTTP outcomes of the two orchestration routes. -/
inductive ApiResponse where
  | unauthorized
  | invalidId
  | configError
  | invalidSigners
  | notFound
  | forbidden
  | notYetSubmitted
  | alreadySubmitted
  | missingFilePath
  | fileReadError
  | providerNetError
  | providerError
  | serverError
  | okSigned (assignmentId : String)
  | okSubmitted (documentId : String)
  deriving DecidableEq

/-- Responses other than the two `200 OK` forms. -/
def ApiResponse.isError : ApiResponse → Bool
  | .okSigned _ => false
  | .okSubmitted _ => false
  | _ => true

structure OpResult where
  response : ApiResponse
  store : List Contract
  calls : List ProviderCall

/-- The zod `requestSignaturesSchema` check: at least one signer, each with a
non-empty `fullName` and an email accepted by the email validator.  zod's
`.email()` regex is library code outside this repository, so the validator is
a parameter. -/
def validSigners (emailValid : String → Bool) (signers : List Signer) : Bool :=
  !signers.isEmpty && signers.all fun s => !s.fullName.isEmpty && emailValid s.email

/-- The sequential signer-creation loop: one `createSigner` call per
descriptor, aborting (the route throws, caught as a 500) on the first call
that does not yield a signer id.  Returns the calls made and, on success, the
collected ids in order. -/
def createSignersLoop (env : ProviderEnv) : List Signer → List ProviderCall × Option (List String)
  | [] => ([], some [])
  | s :: rest =>
    match env.createSigner s.fullName s.email with
    | none => ([.createSigner s.fullName s.email], none)
    | some sid =>
      let (calls, res) := createSignersLoop env rest
      (.createSigner s.fullName s.email :: calls, res.map (sid :: ·))

/-- `POST api/contracts/[contractId]/request-signatures`: auth, id parse
(`contractId = none` models a NaN `parseInt`), configuration, zod validation
(before any lookup or provider call), contract lookup by internal id,
uploader permission, submitted-to-Assinafy precondition
(`!contractDetails.assinafyDocumentId`, a truthiness test), the signer loop,
the assignment call, then the single row update setting
`assinafyStatus = 'pending_signature'`, `status = 'pending_assinaturas'` and
`assinafySignatureRequestId`. -/
def requestSignatures (emailValid : String → Bool) (env : ProviderEnv)
    (store : List Contract) (auth : Option String) (contractId : Option Nat)
    (signers : List Signer) : OpResult :=
  match auth with
  | none => ⟨.unauthorized, store, []⟩
  | some userId =>
    match contractId with
    | none => ⟨.invalidId, store, []⟩
    | some cid =>
      if !env.configured then ⟨.configError, store, []⟩
      else if !validSigners emailValid signers then ⟨.invalidSigners, store, []⟩
      else
        match store.find? (fun c => c.id == cid) with
        | none => ⟨.notFound, store, []⟩
        | some c =>
          if c.uploadedByUserId ≠ some userId then ⟨.forbidden, store, []⟩
          else
            match jsNorm c.assinafyDocumentId with
            | none => ⟨.notYetSubmitted, store, []⟩
            | some d =>
              let (calls, res) := createSignersLoop env signers
              match res with
              | none => ⟨.serverError, store, calls⟩
              | some ids =>
                match env.createAssignment d ids with
                | none => ⟨.serverError, store, calls ++ [.createAssignment d ids]⟩
                | some asgId =>
                  ⟨.okSigned asgId,
                   store.map (fun x => if x.id = cid then
                     { x with assinafyStatus := some "pending_signature"
                              status := "pending_assinaturas"
                              assinafySignatureRequestId := some asgId } else x),
                   calls ++ [.createAssignment d ids]⟩

/-- `POST api/contracts/[id]/send-to-assinafy`: auth, id parse,
configuration, contract lookup, uploader permission, already-submitted guard
(`if (contractDetails.assinafyDocumentId)`, a truthiness test), file-path
presence (`!contractDetails.filePath`), local file read, provider upload,
then the single row update.  The `assinafy_document_id` column is UNIQUE in
the schema, so an update writing an id already held by another row throws at
the database and is answered as the catch-all 500 with no row changed. -/
def sendToAssinafy (env : ProviderEnv) (fileReadable : String → Bool)
    (store : List Contract) (auth : Option String) (contractId : Option Nat) : OpResult :=
  match auth with
  | none => ⟨.unauthorized, store, []⟩
  | some userId =>
    match contractId with
    | none => ⟨.invalidId, store, []⟩
    | some cid =>
      if !env.configured then ⟨.configError, store, []⟩
      else
        match store.find? (fun c => c.id == cid) with
        | none => ⟨.notFound, store, []⟩
        | some c =>
          if c.uploadedByUserId ≠ some userId then ⟨.forbidden, store, []⟩
          else if strTruthy c.assinafyDocumentId then ⟨.alreadySubmitted, store, []⟩
          else if c.filePath.isEmpty then ⟨.missingFilePath, store, []⟩
          else if !fileReadable c.filePath then ⟨.fileReadError, store, []⟩
          else
            match env.uploadDocument c.fileName with
            | .netError => ⟨.providerNetError, store, [.uploadDocument c.fileName]⟩
            | .providerError => ⟨.providerError, store, [.uploadDocument c.fileName]⟩
            | .ok r =>
              if store.any (fun x => x.id != cid && x.assinafyDocumentId == some r.id) then
                ⟨.serverError, store, [.uploadDocument c.fileName]⟩
              else
                ⟨.okSubmitted r.id,
                 store.map (fun x => if x.id = cid then
                   { x with assinafyDocumentId := some r.id
                            assinafyStatus := some r.status
                            assinafyOriginalUrl := r.originalUrl
                            status := "pending_signature_setup" } else x),
                 [.uploadDocument c.fileName]⟩

/-- The row inserted by the contracts upload route (`api/contracts/route.ts`):
`status = 'uploaded'`, the uploader's id, and no Assinafy fields. -/
def createContract (id : Nat) (fileName filePath uploader : String) : Contract :=
  { id := id, uploadedByUserId := some uploader, fileName := fileName
    filePath := filePath, status := "uploaded", signedAt := none
    assinafyDocumentId := none, assinafyStatus := none, assinafyOriginalUrl := none
    assinafyCertificatedUrl := none, assinafySignatureRequestId := none }

/-- Store states reachable by the signature core: contract creation (with a
fresh serial id) and the three operations. -/
inductive Reachable : List Contract → Prop where
  | init : Reachable []
  | create {s} (id : Nat) (fn fp u : String) :
      Reachable s → (∀ x ∈ s, x.id ≠ id) →
      Reachable (s ++ [createContract id fn fp u])
  | submit {s} (env : ProviderEnv) (fileReadable : String → Bool)
      (auth : Option String) (contractId : Option Nat) :
      Reachable s → Reachable (sendToAssinafy env fileReadable s auth contractId).store
  | reqSig {s} (emailValid : String → Bool) (env : ProviderEnv)
      (auth : Option String) (contractId : Option Nat) (signers : List Signer) :
      Reachable s → Reachable (requestSignatures emailValid env s auth contractId signers).store
  | webhook {s} (p : JObj) (now : Nat) :
      Reachable s → Reachable (processWebhook s p now).store

/-- The store invariant: internal ids are pairwise distinct (serial primary
key) and the non-null Assinafy document ids are pairwise distinct (UNIQUE
column). -/
def StoreInv (s : List Contract) : Prop :=
  (s.map (·.id)).Nodup ∧ (s.filterMap (·.assinafyDocumentId)).Nodup

/-! ### Basic facts about the update step -/

theorem applyUpdate_id (ud : UpdateData) (c : Contract) : (applyUpdate ud c).id = c.id := rfl

theorem applyUpdate_docId (ud : UpdateData) (c : Contract) :
    (applyUpdate ud c).assinafyDocumentId = c.assinafyDocumentId := rfl

theorem applyUpdate_status_of_none {ud : UpdateData} (h : ud.status = none) (c : Contract) :
    (applyUpdate ud c).status = c.status := by
  simp [applyUpdate, h]

theorem applyUpdate_idem (ud : UpdateData) (c : Contract) :
    applyUpdate ud (applyUpdate ud c) = applyUpdate ud c := by
  cases ud with
  | mk a s g u => cases a <;> cases s <;> cases g <;> cases u <;> rfl

theorem updateStore_idem (store : List Contract) (cid : Nat) (ud : UpdateData) :
    updateStore (updateStore store cid ud) cid ud = updateStore store cid ud := by
  simp only [updateStore, List.map_map]
  refine List.map_congr_left fun a _ => ?_
  by_cases hid : a.id = cid
  · simp [Function.comp, hid, applyUpdate_idem]
  · simp [Function.comp, hid]

theorem updateStore_map_status_of_none {ud : UpdateData} (h : ud.status = none)
    (store : List Contract) (cid : Nat) :
    (updateStore store cid ud).map (·.status) = store.map (·.status) := by
  simp only [updateStore, List.map_map]
  refine List.map_congr_left fun a _ => ?_
  by_cases hid : a.id = cid
  · simp [Function.comp, hid, applyUpdate_status_of_none h]
  · simp [Function.comp, hid]

theorem findByDocId_updateStore (store : List Contract) (cid : Nat) (ud : UpdateData)
    (d : String) :
    findByDocId (updateStore store cid ud) d =
      (findByDocId store d).map fun x => if x.id = cid then applyUpdate ud x else x := by
  unfold findByDocId updateStore
  rw [List.find?_map]
  have hp : ((fun c : Contract => c.assinafyDocumentId == some d) ∘
        fun x => if x.id = cid then applyUpdate ud x else x) =
      fun c : Contract => c.assinafyDocumentId == some d := by
    funext a
    by_cases hid : a.id = cid <;> simp [Function.comp, hid, applyUpdate_docId]
  rw [hp]

/-! ### Facts about the event mapping -/

theorem computeUpdate_viewed {e : String} (hf : classify e = .viewed)
    (c : Contract) (curStatus certUrl : Option String) (now : Nat) :
    computeUpdate c e curStatus certUrl now =
      some ⟨curStatus, none, none, none⟩ := by
  unfold computeUpdate
  rw [hf]
  cases curStatus with
  | none => rfl
  | some s =>
    simp only [mapEvent, Option.some.injEq]
    split <;> rfl

theorem computeUpdate_indep {e : String} (h1 : classify e ≠ .viewed)
    (h2 : classify e ≠ .other) (c c' : Contract) (curStatus certUrl : Option String)
    (now : Nat) :
    computeUpdate c e curStatus certUrl now = computeUpdate c' e curStatus certUrl now := by
  unfold computeUpdate
  cases hcl : classify e <;> simp_all [mapEvent]

theorem computeUpdate_other_some {c : Contract} {e : String}
    {curStatus certUrl : Option String} {now : Nat} {ud : UpdateData}
    (hf : classify e = .other) (h : computeUpdate c e curStatus certUrl now = some ud) :
    ∃ s, curStatus = some s ∧ c.assinafyStatus ≠ some s ∧
      ud = ⟨some s, none, none, none⟩ := by
  unfold computeUpdate at h
  rw [hf] at h
  cases curStatus with
  | none => simp [mapEvent] at h
  | some s =>
    simp only [mapEvent] at h
    by_cases hne : c.assinafyStatus ≠ some s
    · rw [if_pos hne] at h
      exact ⟨s, rfl, hne, (Option.some.inj h).symm⟩
    · rw [if_neg hne] at h
      simp at h

theorem computeUpdate_other_none {c : Contract} {e : String} {s : String}
    (hf : classify e = .other) (hst : c.assinafyStatus = some s)
    (certUrl : Option String) (now : Nat) :
    computeUpdate c e (some s) certUrl now = none := by
  unfold computeUpdate
  rw [hf]
  simp only [mapEvent]
  rw [if_neg (by simp [hst])]

theorem computeUpdate_status_none {c : Contract} {e : String}
    {curStatus certUrl : Option String} {now : Nat} {ud : UpdateData}
    (hFam : classify e = .viewed ∨ classify e = .other)
    (h : computeUpdate c e curStatus certUrl now = some ud) : ud.status = none := by
  rcases hFam with hf | hf
  · rw [computeUpdate_viewed hf] at h
    cases (Option.some.inj h)
    rfl
  · obtain ⟨s, -, -, hud⟩ := computeUpdate_other_some hf h
    rw [hud]

/-! ### Concrete fixtures -/

/-- A provider `document` object carrying an id, a status and a
certificated-artifact URL. -/
def docObj (i st cu : Option String) : JObj :=
  .mk none none none none none i none st none cu none

/-- A payload `{event, data: {document: d}}`, the shape of the spec's webhook
scenarios. -/
def payloadWith (ev : Option String) (d : JObj) : JObj :=
  .mk ev none none (some (.mk none none none none (some d) none none none none none none))
    none none none none none none none

/-- Contract 42 as submitted to Assinafy and awaiting signatures. -/
def baseContract : Contract :=
  { id := 42, uploadedByUserId := some "u1", fileName := "contrato.pdf"
    filePath := "contracts/contrato.pdf", status := "pending_assinaturas"
    signedAt := none, assinafyDocumentId := some "doc-9"
    assinafyStatus := some "pending_signature", assinafyOriginalUrl := none
    assinafyCertificatedUrl := none, assinafySignatureRequestId := none }

/-- An always-succeeding provider for witnesses. -/
def envHappy : ProviderEnv :=
  { configured := true
    createSigner := fun _ _ => some "sgn-1"
    createAssignment := fun _ _ => some "asg-1"
    uploadDocument := fun _ => .ok ⟨"doc-9", "uploaded", none⟩ }

/-! ### C6 -/

/-- C6: the webhook receiver answers `400` exactly when `eventType` or the
provider document id cannot be extracted from the payload, and a success
status for every other request — the provider never observes a business-logic
failure response. -/
theorem c6_payload_errors_only (store : List Contract) (p : JObj) (now : Nat) :
    (processWebhook store p now).response.isSuccess = true ↔
      extractEventType p ≠ none ∧ extractDocId (documentInfo p) ≠ none := by
  cases hEt : extractEventType p with
  | none => simp [processWebhook, hEt, WebhookResponse.isSuccess]
  | some et =>
    cases hD : extractDocId (documentInfo p) with
    | none => simp [processWebhook, hEt, hD, WebhookResponse.isSuccess]
    | some d =>
      cases hF : findByDocId store d with
      | none => simp [processWebhook, hEt, hD, hF, WebhookResponse.isSuccess]
      | some c =>
        cases hU : computeUpdate c (lowerAscii et) (extractStatus (documentInfo p))
            (extractCertUrl (documentInfo p)) now with
        | none => simp [processWebhook, hEt, hD, hF, hU, WebhookResponse.isSuccess]
        | some ud =>
          by_cases hC : hasChanges ud = true <;>
            simp [processWebhook, hEt, hD, hF, hU, hC, WebhookResponse.isSuccess]

/-! ### C7 -/

/-- C7: a webhook whose extracted document id matches no stored contract is
acknowledged with success, mutates no record, and logs one warning. -/
theorem c7_unknown_document (store : List Contract) (p : JObj) (now : Nat)
    (et d : String) (hEt : extractEventType p = some et)
    (hD : extractDocId (documentInfo p) = some d)
    (hF : findByDocId store d = none) :
    (processWebhook store p now).response = .okNotFound ∧
      (processWebhook store p now).response.isSuccess = true ∧
      (processWebhook store p now).store = store ∧
      (processWebhook store p now).warnings = 1 := by
  simp [processWebhook, hEt, hD, hF, WebhookResponse.isSuccess]

/-- The unknown-document scenario: `doc-unknown` matches nothing. -/
theorem c7_unknown_document_witness :
    (processWebhook [baseContract]
        (payloadWith (some "document_rejected") (docObj (some "doc-unknown") none none))
        5).response = .okNotFound ∧
      (processWebhook [baseContract]
        (payloadWith (some "document_rejected") (docObj (some "doc-unknown") none none))
        5).response.isSuccess = true ∧
      (processWebhook [baseContract]
        (payloadWith (some "document_rejected") (docObj (some "doc-unknown") none none))
        5).store = [baseContract] ∧
      (processWebhook [baseContract]
        (payloadWith (some "document_rejected") (docObj (some "doc-unknown") none none))
        5).warnings = 1 :=
  c7_unknown_document [baseContract] _ 5 "document_rejected" "doc-unknown"
    rfl rfl (by decide)

/-! ### C1 -/

/-- Contract 42 after completing signature: terminal state `signed`. -/
def signedContract : Contract :=
  { baseContract with status := "signed", signedAt := some 3
                      assinafyStatus := some "certificated" }

/-- A rejection webhook for document `doc-9` carrying no payload status. -/
def rejectionPayload : JObj :=
  payloadWith (some "document_rejected") (docObj (some "doc-9") none none)

/-- C1 is false on the code: a contract whose `internalStatus` is the terminal
value `signed` receives a `document_rejected` webhook — an event asserting the
different terminal state `rejected`, hence not re-asserting `signed` — and its
`internalStatus` is changed to `rejected`.  The mapping `switch` never
consults the stored status. -/
theorem c1_counterexample :
    signedContract.status = "signed" ∧
      (processWebhook [signedContract] rejectionPayload 9).store.map (·.status) =
        ["rejected"] := by
  constructor
  · rfl
  · decide

/-- C1 (amended): once `internalStatus` is terminal, a webhook event whose
lower-cased type falls outside the mapped families (the `default` and
`document_viewed_by_signer` branches) leaves every stored `internalStatus`
unchanged; an event of a mapped family, however, overwrites `internalStatus`
with its mapped value regardless of the stored state, so terminal states are
not absorbing (see the counterexample). -/
theorem c1_terminal_preserved_for_unmapped (store : List Contract) (p : JObj)
    (now : Nat) (c : Contract) (et d : String)
    (hEt : extractEventType p = some et)
    (hD : extractDocId (documentInfo p) = some d)
    (hF : findByDocId store d = some c)
    (_hTerm : c.status = "signed" ∨ c.status = "rejected" ∨ c.status = "expired" ∨
      c.status = "cancelled")
    (hFam : classify (lowerAscii et) = .viewed ∨ classify (lowerAscii et) = .other) :
    (processWebhook store p now).store.map (·.status) = store.map (·.status) := by
  cases hU : computeUpdate c (lowerAscii et) (extractStatus (documentInfo p))
      (extractCertUrl (documentInfo p)) now with
  | none => simp [processWebhook, hEt, hD, hF, hU]
  | some ud =>
    have hst : ud.status = none := computeUpdate_status_none hFam hU
    by_cases hC : hasChanges ud = true <;>
      simp [processWebhook, hEt, hD, hF, hU, hC, updateStore_map_status_of_none hst]

/-- Witness: a `signed` contract and an unmapped `document_viewed_by_signer`
event leave the internal status untouched. -/
theorem c1_terminal_preserved_for_unmapped_witness :
    (processWebhook [signedContract]
        (payloadWith (some "document_viewed_by_signer")
          (docObj (some "doc-9") (some "viewed") none)) 9).store.map (·.status) =
      [signedContract].map (·.status) :=
  c1_terminal_preserved_for_unmapped [signedContract] _ 9 signedContract
    "document_viewed_by_signer" "doc-9" rfl rfl (by decide)
    (Or.inl rfl) (Or.inl (by decide))

/-! ### C2 -/

/-- C2: a completion event (`document_ready`, `process_completed` or
`document_certificated`, matched case-insensitively) delivered for an existing
contract answers 200, sets `internalStatus = 'signed'`, sets `providerStatus`
to the payload's status (or `'certificated'` when absent), stamps
`signedAt = now`, and stores the certificated artifact URL when the payload
carries one. -/
theorem c2_completion_signs (store : List Contract) (p : JObj) (now : Nat)
    (c : Contract) (et d : String)
    (hEt : extractEventType p = some et)
    (hFam : classify (lowerAscii et) = .completion)
    (hD : extractDocId (documentInfo p) = some d)
    (hF : findByDocId store d = some c) :
    (processWebhook store p now).response = .okProcessed ∧
      (∃ x ∈ (processWebhook store p now).store, x.id = c.id) ∧
      ∀ x ∈ (processWebhook store p now).store, x.id = c.id →
        x.status = "signed" ∧ x.signedAt = some now ∧
          x.assinafyStatus = some ((extractStatus (documentInfo p)).getD "certificated") ∧
          ∀ u, extractCertUrl (documentInfo p) = some u →
            x.assinafyCertificatedUrl = some u := by
  have hU : computeUpdate c (lowerAscii et) (extractStatus (documentInfo p))
      (extractCertUrl (documentInfo p)) now =
      some ⟨some ((extractStatus (documentInfo p)).getD "certificated"), some "signed",
        some now, extractCertUrl (documentInfo p)⟩ := by
    unfold computeUpdate
    rw [hFam]
    rfl
  have hC : hasChanges
      (⟨some ((extractStatus (documentInfo p)).getD "certificated"), some "signed",
        some now, extractCertUrl (documentInfo p)⟩ : UpdateData) = true := by
    simp [hasChanges]
  refine ⟨?_, ?_, ?_⟩
  · simp [processWebhook, hEt, hD, hF, hU, hC]
  · refine ⟨applyUpdate
      ⟨some ((extractStatus (documentInfo p)).getD "certificated"), some "signed",
        some now, extractCertUrl (documentInfo p)⟩ c, ?_, rfl⟩
    simp only [processWebhook, hEt, hD, hF, hU, hC, if_true, updateStore]
    refine List.mem_map.2 ⟨c, List.mem_of_find?_eq_some hF, ?_⟩
    rw [if_pos rfl]
  · intro x hx hid
    simp only [processWebhook, hEt, hD, hF, hU, hC, if_true, updateStore] at hx
    obtain ⟨a, -, ha⟩ := List.mem_map.1 hx
    by_cases haid : a.id = c.id
    · rw [if_pos haid] at ha
      subst ha
      refine ⟨rfl, rfl, rfl, fun u hu => ?_⟩
      simp [applyUpdate, hu]
    · rw [if_neg haid] at ha
      subst ha
      exact absurd hid haid

/-- Witness: the spec's webhook-completion scenario, `document_certificated`
for `doc-9` with status `certificated` and a certificated-artifact URL. -/
theorem c2_completion_signs_witness :
    (processWebhook [baseContract]
        (payloadWith (some "document_certificated")
          (docObj (some "doc-9") (some "certificated")
            (some "https://provider/doc-9.pdf"))) 5).response = .okProcessed ∧
      (∃ x ∈ (processWebhook [baseContract]
        (payloadWith (some "document_certificated")
          (docObj (some "doc-9") (some "certificated")
            (some "https://provider/doc-9.pdf"))) 5).store, x.id = baseContract.id) ∧
      ∀ x ∈ (processWebhook [baseContract]
        (payloadWith (some "document_certificated")
          (docObj (some "doc-9") (some "certificated")
            (some "https://provider/doc-9.pdf"))) 5).store, x.id = baseContract.id →
        x.status = "signed" ∧ x.signedAt = some 5 ∧
          x.assinafyStatus = some ((extractStatus (documentInfo
            (payloadWith (some "document_certificated")
              (docObj (some "doc-9") (some "certificated")
                (some "https://provider/doc-9.pdf"))))).getD "certificated") ∧
          ∀ u, extractCertUrl (documentInfo
            (payloadWith (some "document_certificated")
              (docObj (some "doc-9") (some "certificated")
                (some "https://provider/doc-9.pdf")))) = some u →
            x.assinafyCertificatedUrl = some u :=
  c2_completion_signs [baseContract] _ 5 baseContract "document_certificated" "doc-9"
    rfl (by decide) rfl (by decide)

/-! ### C9 -/

/-- C9: an empty signer list, a signer with a blank `fullName`, or a signer
whose email the validator rejects makes `request-signatures` fail with the
validation error before any Provider Client call: no outbound call is made and
the store is unchanged. -/
theorem c9_validation_precedes_provider (emailValid : String → Bool)
    (env : ProviderEnv) (store : List Contract) (userId : String)
    (cid : Nat) (signers : List Signer)
    (hEnv : env.configured = true)
    (hBad : signers = [] ∨ ∃ s ∈ signers, s.fullName = "" ∨ emailValid s.email = false) :
    (requestSignatures emailValid env store (some userId) (some cid) signers).response =
        .invalidSigners ∧
      (requestSignatures emailValid env store (some userId) (some cid) signers).store =
        store ∧
      (requestSignatures emailValid env store (some userId) (some cid) signers).calls =
        [] := by
  have hV : validSigners emailValid signers = false := by
    unfold validSigners
    rcases hBad with h | ⟨s, hs, hbad⟩
    · subst h; rfl
    · have hps : (!s.fullName.isEmpty && emailValid s.email) = false := by
        rcases hbad with h | h
        · rw [h]; rfl
        · simp [h]
      cases hA : signers.all (fun s => !s.fullName.isEmpty && emailValid s.email) with
      | false => simp [hA]
      | true => exact absurd ((List.all_eq_true.1 hA) s hs) (by simp [hps])
  simp [requestSignatures, hEnv, hV]

/-- Witness: one signer with a blank name is rejected with no provider call. -/
theorem c9_validation_precedes_provider_witness :
    (requestSignatures (fun _ => true) envHappy [baseContract] (some "u1") (some 42)
        [⟨"", "ana@example.com"⟩]).response = .invalidSigners ∧
      (requestSignatures (fun _ => true) envHappy [baseContract] (some "u1") (some 42)
        [⟨"", "ana@example.com"⟩]).store = [baseContract] ∧
      (requestSignatures (fun _ => true) envHappy [baseContract] (some "u1") (some 42)
        [⟨"", "ana@example.com"⟩]).calls = [] :=
  c9_validation_precedes_provider (fun _ => true) envHappy [baseContract] "u1" 42
    [⟨"", "ana@example.com"⟩] rfl
    (Or.inr ⟨⟨"", "ana@example.com"⟩, by simp, Or.inl rfl⟩)

/-! ### C3 -/

/-- C3: with the contract already submitted to Assinafy (truthy
`assinafyDocumentId`) and a valid signer list, when every `createSigner` call
succeeds and `createAssignment` succeeds, the route answers 200 with the
assignment id and sets `assinafySignatureRequestId` to it,
`providerStatus = 'pending_signature'` and the internal status
`'pending_assinaturas'` on the contract row. -/
theorem c3_request_signatures_success (emailValid : String → Bool)
    (env : ProviderEnv) (store : List Contract) (userId : String) (cid : Nat)
    (signers : List Signer) (c : Contract) (d : String)
    (calls : List ProviderCall) (ids : List String) (asgId : String)
    (hEnv : env.configured = true)
    (hV : validSigners emailValid signers = true)
    (hF : store.find? (fun x => x.id == cid) = some c)
    (hAuth : c.uploadedByUserId = some userId)
    (hDoc : jsNorm c.assinafyDocumentId = some d)
    (hLoop : createSignersLoop env signers = (calls, some ids))
    (hAsg : env.createAssignment d ids = some asgId) :
    (requestSignatures emailValid env store (some userId) (some cid) signers).response =
        .okSigned asgId ∧
      (∃ x ∈ (requestSignatures emailValid env store (some userId) (some cid)
        signers).store, x.id = cid) ∧
      ∀ x ∈ (requestSignatures emailValid env store (some userId) (some cid)
          signers).store, x.id = cid →
        x.assinafySignatureRequestId = some asgId ∧
          x.status = "pending_assinaturas" ∧
          x.assinafyStatus = some "pending_signature" := by
  have hcid : c.id = cid := by
    have := List.find?_some hF
    simpa using this
  have hres : requestSignatures emailValid env store (some userId) (some cid) signers =
      ⟨.okSigned asgId,
       store.map (fun x => if x.id = cid then
         { x with assinafyStatus := some "pending_signature"
                  status := "pending_assinaturas"
                  assinafySignatureRequestId := some asgId } else x),
       calls ++ [.createAssignment d ids]⟩ := by
    simp [requestSignatures, hEnv, hV, hF, hAuth, hDoc, hLoop, hAsg]
  refine ⟨?_, ?_, ?_⟩
  · rw [hres]
  · rw [hres]
    refine ⟨_, List.mem_map_of_mem _ (List.mem_of_find?_eq_some hF), ?_⟩
    rw [if_pos hcid]
    exact hcid
  · intro x hx hid
    rw [hres] at hx
    obtain ⟨a, -, ha⟩ := List.mem_map.1 hx
    by_cases haid : a.id = cid
    · rw [if_pos haid] at ha
      subst ha
      exact ⟨rfl, rfl, rfl⟩
    · rw [if_neg haid] at ha
      subst ha
      exact absurd hid haid

/-- Contract 42 submitted to Assinafy, awaiting signer setup. -/
def setupContract : Contract :=
  { baseContract with status := "pending_signature_setup"
                      assinafyStatus := some "uploaded" }

/-- Witness: the spec's happy-path scenario, one signer, signer id `sgn-1`,
assignment id `asg-1`. -/
theorem c3_request_signatures_success_witness :
    (requestSignatures (fun _ => true) envHappy [setupContract] (some "u1") (some 42)
        [⟨"Ana Silva", "ana@example.com"⟩]).response = .okSigned "asg-1" ∧
      (∃ x ∈ (requestSignatures (fun _ => true) envHappy [setupContract] (some "u1")
        (some 42) [⟨"Ana Silva", "ana@example.com"⟩]).store, x.id = 42) ∧
      ∀ x ∈ (requestSignatures (fun _ => true) envHappy [setupContract] (some "u1")
          (some 42) [⟨"Ana Silva", "ana@example.com"⟩]).store, x.id = 42 →
        x.assinafySignatureRequestId = some "asg-1" ∧
          x.status = "pending_assinaturas" ∧
          x.assinafyStatus = some "pending_signature" :=
  c3_request_signatures_success (fun _ => true) envHappy [setupContract] "u1" 42
    [⟨"Ana Silva", "ana@example.com"⟩] setupContract "doc-9"
    [.createSigner "Ana Silva" "ana@example.com"] ["sgn-1"] "asg-1"
    rfl (by decide) (by decide) rfl (by decide) rfl rfl

/-! ### C5 -/

/-- C5: when the upload to the provider fails — the `fetch` throws (network
error) or the provider answers non-success — `send-to-assinafy` answers an
error and the store is unchanged: `assinafyDocumentId` stays null and the
internal status stays `'uploaded'`. -/
theorem c5_submit_failure_atomic (env : ProviderEnv) (fileReadable : String → Bool)
    (store : List Contract) (userId : String) (cid : Nat) (c : Contract)
    (hEnv : env.configured = true)
    (hF : store.find? (fun x => x.id == cid) = some c)
    (hAuth : c.uploadedByUserId = some userId)
    (hDoc : c.assinafyDocumentId = none)
    (_hStatus : c.status = "uploaded")
    (hPath : c.filePath.isEmpty = false)
    (hRead : fileReadable c.filePath = true)
    (hUp : env.uploadDocument c.fileName = .netError ∨
      env.uploadDocument c.fileName = .providerError) :
    (sendToAssinafy env fileReadable store (some userId) (some cid)).response.isError =
        true ∧
      (sendToAssinafy env fileReadable store (some userId) (some cid)).store = store := by
  rcases hUp with h | h <;>
    simp [sendToAssinafy, hEnv, hF, hAuth, hDoc, hPath, hRead, h, strTruthy,
      ApiResponse.isError]

/-- A provider whose document upload always fails at the network level. -/
def envNetFail : ProviderEnv :=
  { envHappy with uploadDocument := fun _ => .netError }

/-- A freshly uploaded contract, not yet sent to Assinafy. -/
def uploadedContract : Contract := createContract 42 "contrato.pdf" "contracts/contrato.pdf" "u1"

/-- Witness: a network failure during upload leaves the record untouched. -/
theorem c5_submit_failure_atomic_witness :
    (sendToAssinafy envNetFail (fun _ => true) [uploadedContract] (some "u1")
        (some 42)).response.isError = true ∧
      (sendToAssinafy envNetFail (fun _ => true) [uploadedContract] (some "u1")
        (some 42)).store = [uploadedContract] :=
  c5_submit_failure_atomic envNetFail (fun _ => true) [uploadedContract] "u1" 42
    uploadedContract rfl (by decide) rfl rfl rfl rfl rfl (Or.inl rfl)

/-! ### C8 -/

theorem set_assinafyStatus_self {a : Contract} {v : Option String}
    (h : a.assinafyStatus = v) : { a with assinafyStatus := v } = a := by
  cases a
  cases h
  rfl

theorem computeUpdate_other_write {c : Contract} {e s : String}
    (hf : classify e = .other) (hcs : c.assinafyStatus ≠ some s)
    (certUrl : Option String) (now : Nat) :
    computeUpdate c e (some s) certUrl now = some ⟨some s, none, none, none⟩ := by
  unfold computeUpdate
  rw [hf]
  simp only [mapEvent]
  rw [if_pos hcs]

/-- Writing `assinafyStatus := some s` on every row with the given id is the
same as writing it only where it differs (writing an equal value changes
nothing). -/
theorem updateStore_selective (store : List Contract) (cid : Nat) (s : String) :
    updateStore store cid ⟨some s, none, none, none⟩ =
      store.map fun x =>
        if x.id = cid ∧ (some s : Option String) ≠ none ∧ some s ≠ x.assinafyStatus
        then { x with assinafyStatus := some s } else x := by
  refine List.map_congr_left fun a _ => ?_
  by_cases hid : a.id = cid
  · by_cases hst : some s ≠ a.assinafyStatus
    · rw [if_pos hid, if_pos ⟨hid, by simp, hst⟩]
      rfl
    · have hst2 : a.assinafyStatus = some s := (not_ne_iff.1 hst).symm
      rw [if_pos hid, if_neg fun hcond => hcond.2.2 hst2.symm]
      exact set_assinafyStatus_self hst2
  · rw [if_neg hid, if_neg fun hcond => hid hcond.1]

theorem map_status_selective (store : List Contract) (cid : Nat) (v : Option String) :
    (store.map fun x =>
        if x.id = cid ∧ v ≠ none ∧ v ≠ x.assinafyStatus
        then { x with assinafyStatus := v } else x).map (·.status) =
      store.map (·.status) := by
  rw [List.map_map]
  refine List.map_congr_left fun a _ => ?_
  by_cases hcond : a.id = cid ∧ v ≠ none ∧ v ≠ a.assinafyStatus <;>
    simp [Function.comp, hcond]

/-- C8: an event whose lower-cased type matches none of the mapped families
(the `default` branch and the `document_viewed_by_signer` branch, which the
spec's table does not list) leaves every `internalStatus` unchanged, and the
store changes at most by the looked-up row's mirrored `assinafyStatus`, and
only when the payload carries a provider status different from the stored
one. -/
theorem c8_unmapped_event_only_provider_status (store : List Contract) (p : JObj)
    (now : Nat) (c : Contract) (et d : String)
    (hNodup : (store.map (·.id)).Nodup)
    (hEt : extractEventType p = some et)
    (hD : extractDocId (documentInfo p) = some d)
    (hF : findByDocId store d = some c)
    (hFam : classify (lowerAscii et) = .viewed ∨ classify (lowerAscii et) = .other) :
    (processWebhook store p now).store =
        (store.map fun x =>
          if x.id = c.id ∧ extractStatus (documentInfo p) ≠ none ∧
              extractStatus (documentInfo p) ≠ x.assinafyStatus
          then { x with assinafyStatus := extractStatus (documentInfo p) } else x) ∧
      (processWebhook store p now).store.map (·.status) = store.map (·.status) := by
  have hc_mem : c ∈ store := List.mem_of_find?_eq_some hF
  have hinj : ∀ x ∈ store, x.id = c.id → x = c := fun x hx h =>
    List.inj_on_of_nodup_map hNodup hx hc_mem h
  cases hcur : extractStatus (documentInfo p) with
  | none =>
    have hstore : (processWebhook store p now).store = store := by
      rcases hFam with hf | hf
      · simp [processWebhook, hEt, hD, hF, hcur, computeUpdate_viewed hf, hasChanges]
      · simp [processWebhook, hEt, hD, hF, hcur, computeUpdate, hf, mapEvent]
    rw [hstore]
    refine ⟨?_, rfl⟩
    symm
    refine (List.map_congr_left fun a _ => ?_).trans store.map_id
    simp
  | some s =>
    rcases hFam with hf | hf
    · have hstore : (processWebhook store p now).store =
          updateStore store c.id ⟨some s, none, none, none⟩ := by
        simp [processWebhook, hEt, hD, hF, hcur, computeUpdate_viewed hf, hasChanges]
      rw [hstore, updateStore_selective]
      exact ⟨rfl, map_status_selective store c.id (some s)⟩
    · by_cases hcs : c.assinafyStatus = some s
      · have hstore : (processWebhook store p now).store = store := by
          simp [processWebhook, hEt, hD, hF, hcur,
            computeUpdate_other_none hf hcs (extractCertUrl (documentInfo p)) now]
        rw [hstore]
        refine ⟨?_, rfl⟩
        symm
        refine (List.map_congr_left fun a ha => ?_).trans store.map_id
        have hcond : ¬(a.id = c.id ∧ (some s : Option String) ≠ none ∧
            some s ≠ a.assinafyStatus) := by
          rintro ⟨h1, -, h3⟩
          exact h3 (by rw [hinj a ha h1, hcs])
        rw [if_neg hcond, id_eq]
      · have hstore : (processWebhook store p now).store =
            updateStore store c.id ⟨some s, none, none, none⟩ := by
          simp [processWebhook, hEt, hD, hF, hcur,
            computeUpdate_other_write hf hcs (extractCertUrl (documentInfo p)) now,
            hasChanges]
        rw [hstore, updateStore_selective]
        exact ⟨rfl, map_status_selective store c.id (some s)⟩

/-- Witness: an unmapped `weird_event` carrying status `odd` for `doc-9`
updates only the mirrored provider status of contract 42. -/
theorem c8_unmapped_event_only_provider_status_witness :
    (processWebhook [baseContract]
        (payloadWith (some "weird_event") (docObj (some "doc-9") (some "odd") none))
        5).store =
        ([baseContract].map fun x =>
          if x.id = baseContract.id ∧
              extractStatus (documentInfo (payloadWith (some "weird_event")
                (docObj (some "doc-9") (some "odd") none))) ≠ none ∧
              extractStatus (documentInfo (payloadWith (some "weird_event")
                (docObj (some "doc-9") (some "odd") none))) ≠ x.assinafyStatus
          then { x with assinafyStatus :=
              extractStatus (documentInfo (payloadWith (some "weird_event")
                (docObj (some "doc-9") (some "odd") none))) } else x) ∧
      (processWebhook [baseContract]
        (payloadWith (some "weird_event") (docObj (some "doc-9") (some "odd") none))
        5).store.map (·.status) = [baseContract].map (·.status) :=
  c8_unmapped_event_only_provider_status [baseContract] _ 5 baseContract
    "weird_event" "doc-9" (by decide) rfl rfl (by decide) (Or.inr (by decide))

/-! ### C4 -/

/-- The spec's completion payload for `doc-9`. -/
def completionPayload : JObj :=
  payloadWith (some "document_certificated")
    (docObj (some "doc-9") (some "certificated") (some "https://provider/doc-9.pdf"))

/-- C4 is false on the code: delivering the same completion event a second
time (at a later clock reading) re-runs `updateData.signedAt = new Date()`, so
the final record differs from a single delivery — `signedAt` is overwritten,
not set exactly once. -/
theorem c4_counterexample :
    (processWebhook (processWebhook [baseContract] completionPayload 1).store
          completionPayload 2).store ≠
        (processWebhook [baseContract] completionPayload 1).store ∧
      (processWebhook (processWebhook [baseContract] completionPayload 1).store
          completionPayload 2).store.map (·.signedAt) = [some 2] ∧
      (processWebhook [baseContract] completionPayload 1).store.map (·.signedAt) =
        [some 1] := by
  refine ⟨?_, ?_, ?_⟩ <;> decide

/-- C4 (amended): applying the webhook handler twice with the same normalized
event at the same clock reading yields the same final store as applying it
once; across deliveries at different times, however, a repeated completion
event re-stamps `signedAt` with the later delivery time (see the
counterexample). -/
theorem c4_idempotent_at_fixed_time (store : List Contract) (p : JObj) (now : Nat) :
    (processWebhook (processWebhook store p now).store p now).store =
      (processWebhook store p now).store := by
  cases hEt : extractEventType p with
  | none => simp [processWebhook, hEt]
  | some et =>
    cases hD : extractDocId (documentInfo p) with
    | none => simp [processWebhook, hEt, hD]
    | some d =>
      cases hF : findByDocId store d with
      | none => simp [processWebhook, hEt, hD, hF]
      | some c =>
        cases hU : computeUpdate c (lowerAscii et) (extractStatus (documentInfo p))
            (extractCertUrl (documentInfo p)) now with
        | none => simp [processWebhook, hEt, hD, hF, hU]
        | some ud =>
          by_cases hC : hasChanges ud = true
          · have hres1 : (processWebhook store p now).store = updateStore store c.id ud := by
              simp [processWebhook, hEt, hD, hF, hU, hC]
            have hF2 : findByDocId (updateStore store c.id ud) d = some (applyUpdate ud c) := by
              rw [findByDocId_updateStore, hF]
              simp
            rw [hres1]
            by_cases hV : classify (lowerAscii et) = .viewed
            · have hud : ud = ⟨extractStatus (documentInfo p), none, none, none⟩ :=
                (Option.some.inj ((computeUpdate_viewed hV c _ _ now).symm.trans hU)).symm
              have hU2 : computeUpdate (applyUpdate ud c) (lowerAscii et)
                  (extractStatus (documentInfo p)) (extractCertUrl (documentInfo p)) now =
                  some ud := by
                rw [computeUpdate_viewed hV, hud]
              simp [processWebhook, hEt, hD, hF2, hU2, hC, applyUpdate_id, updateStore_idem]
            · by_cases hO : classify (lowerAscii et) = .other
              · obtain ⟨s, hcur, -, hud⟩ := computeUpdate_other_some hO hU
                have hst2 : (applyUpdate ud c).assinafyStatus = some s := by
                  rw [hud]; rfl
                have hU2 : computeUpdate (applyUpdate ud c) (lowerAscii et)
                    (extractStatus (documentInfo p)) (extractCertUrl (documentInfo p)) now =
                    none := by
                  rw [hcur]
                  exact computeUpdate_other_none hO hst2 _ now
                simp [processWebhook, hEt, hD, hF2, hU2]
              · have hU2 : computeUpdate (applyUpdate ud c) (lowerAscii et)
                    (extractStatus (documentInfo p)) (extractCertUrl (documentInfo p)) now =
                    some ud := by
                  rw [computeUpdate_indep hV hO (applyUpdate ud c) c]
                  exact hU
                simp [processWebhook, hEt, hD, hF2, hU2, hC, applyUpdate_id, updateStore_idem]
          · have hres1 : (processWebhook store p now).store = store := by
              simp [processWebhook, hEt, hD, hF, hU, hC]
            rw [hres1]
            simp [processWebhook, hEt, hD, hF, hU, hC]

/-! ### C10 -/

/-- Every path of `sendToAssinafy` leaves the store unchanged, except the
success path, which requires the looked-up row's Assinafy id to be falsy and
the provider-returned id to be held by no other row, and rewrites only that
row. -/
theorem sendToAssinafy_store_shape (env : ProviderEnv) (fr : String → Bool)
    (store : List Contract) (auth : Option String) (contractId : Option Nat) :
    (sendToAssinafy env fr store auth contractId).store = store ∨
      ∃ n r c, store.find? (fun x => x.id == n) = some c ∧
        strTruthy c.assinafyDocumentId = false ∧
        store.any (fun x => x.id != n && x.assinafyDocumentId == some (UploadResult.id r)) =
          false ∧
        (sendToAssinafy env fr store auth contractId).store =
          (store.map fun x => if x.id = n then
            { x with assinafyDocumentId := some r.id
                     assinafyStatus := some r.status
                     assinafyOriginalUrl := r.originalUrl
                     status := "pending_signature_setup" } else x) := by
  unfold sendToAssinafy
  split
  · exact Or.inl rfl
  split
  · exact Or.inl rfl
  split
  · exact Or.inl rfl
  split
  · exact Or.inl rfl
  next c hF =>
  split
  · exact Or.inl rfl
  split
  · exact Or.inl rfl
  next hTr =>
  split
  · exact Or.inl rfl
  split
  · exact Or.inl rfl
  split
  · exact Or.inl rfl
  · exact Or.inl rfl
  next r hUp =>
  split
  · exact Or.inl rfl
  next hGuard =>
  exact Or.inr ⟨_, r, c, hF, by simpa using hTr, by simpa using hGuard, rfl⟩

/-- Every path of the webhook receiver leaves the store unchanged or applies
one `updateStore`. -/
theorem processWebhook_store_shape (store : List Contract) (p : JObj) (now : Nat) :
    (processWebhook store p now).store = store ∨
      ∃ cid ud, (processWebhook store p now).store = updateStore store cid ud := by
  unfold processWebhook
  dsimp only
  split
  · exact Or.inl rfl
  split
  · exact Or.inl rfl
  split
  · exact Or.inl rfl
  next c hF =>
  split
  · exact Or.inl rfl
  next ud hU =>
  split
  · exact Or.inr ⟨c.id, ud, rfl⟩
  · exact Or.inl rfl

/-- Every path of `request-signatures` leaves the store unchanged, except the
success path, which rewrites only the looked-up row's signature fields. -/
theorem requestSignatures_store_shape (emailValid : String → Bool) (env : ProviderEnv)
    (store : List Contract) (auth : Option String) (contractId : Option Nat)
    (signers : List Signer) :
    (requestSignatures emailValid env store auth contractId signers).store = store ∨
      ∃ n asgId, (requestSignatures emailValid env store auth contractId signers).store =
        (store.map fun x => if x.id = n then
          { x with assinafyStatus := some "pending_signature"
                   status := "pending_assinaturas"
                   assinafySignatureRequestId := some asgId } else x) := by
  unfold requestSignatures
  split
  · exact Or.inl rfl
  split
  · exact Or.inl rfl
  split
  · exact Or.inl rfl
  split
  · exact Or.inl rfl
  split
  · exact Or.inl rfl
  split
  · exact Or.inl rfl
  split
  · exact Or.inl rfl
  split
  split
  · exact Or.inl rfl
  split
  · exact Or.inl rfl
  exact Or.inr ⟨_, _, rfl⟩

theorem map_field_invariant {β : Type} (g : Contract → β) (f : Contract → Contract)
    (hf : ∀ a, g (f a) = g a) (store : List Contract) :
    (store.map f).map g = store.map g := by
  rw [List.map_map]
  exact List.map_congr_left fun a _ => hf a

theorem filterMap_field_invariant (g : Contract → Option String) (f : Contract → Contract)
    (hf : ∀ a, g (f a) = g a) (store : List Contract) :
    (store.map f).filterMap g = store.filterMap g := by
  rw [List.filterMap_map]
  exact List.filterMap_congr fun a _ => hf a

/-- Setting a fresh Assinafy document id on the (unique) row with a given
internal id preserves distinctness of the stored document ids. -/
theorem nodup_filterMap_docId_set (n : Nat) (nid : String) (u : Contract → Contract)
    (hu : ∀ x, (u x).assinafyDocumentId = some nid) :
    ∀ (store : List Contract),
      (store.map (·.id)).Nodup →
      (store.filterMap (·.assinafyDocumentId)).Nodup →
      (∀ x ∈ store, x.id ≠ n → x.assinafyDocumentId ≠ some nid) →
      ((store.map fun x => if x.id = n then u x else x).filterMap
          (·.assinafyDocumentId)).Nodup := by
  intro store
  induction store with
  | nil => intro _ _ _; simp
  | cons a rest ih =>
    intro hIds hDocs hFresh
    rw [List.map_cons] at hIds
    obtain ⟨haid, hIds'⟩ := List.nodup_cons.1 hIds
    have hFresh' : ∀ x ∈ rest, x.id ≠ n → x.assinafyDocumentId ≠ some nid :=
      fun x hx => hFresh x (List.mem_cons_of_mem a hx)
    have hDocs' : (rest.filterMap (·.assinafyDocumentId)).Nodup := by
      rcases hda : a.assinafyDocumentId with _ | v
      · rw [List.filterMap_cons, hda] at hDocs
        exact hDocs
      · rw [List.filterMap_cons, hda] at hDocs
        exact (List.nodup_cons.1 hDocs).2
    by_cases hid : a.id = n
    · have hrest : rest.map (fun x => if x.id = n then u x else x) = rest := by
        refine (List.map_congr_left fun x hx => ?_).trans rest.map_id
        rw [if_neg fun hc => haid (by rw [hid, ← hc]; exact List.mem_map_of_mem _ hx), id_eq]
      rw [List.map_cons, if_pos hid, List.filterMap_cons, hu a, hrest]
      refine List.nodup_cons.2 ⟨?_, hDocs'⟩
      intro hmem
      obtain ⟨y, hy, hyd⟩ := List.mem_filterMap.1 hmem
      have hyid : y.id ≠ n := fun hc => haid (by rw [hid, ← hc]; exact List.mem_map_of_mem _ hy)
      exact hFresh' y hy hyid hyd
    · rw [List.map_cons, if_neg hid, List.filterMap_cons]
      rcases hda : a.assinafyDocumentId with _ | v
      · exact ih hIds' hDocs' hFresh'
      · refine List.nodup_cons.2 ⟨?_, ih hIds' hDocs' hFresh'⟩
        intro hmem
        obtain ⟨y, hy, hyd⟩ := List.mem_filterMap.1 hmem
        obtain ⟨y0, hy0, hfy⟩ := List.mem_map.1 hy
        by_cases hyid : y0.id = n
        · rw [← hfy, if_pos hyid, hu y0] at hyd
          have hva : a.assinafyDocumentId ≠ some nid := hFresh a (List.mem_cons_self a rest) hid
          exact hva (hda.trans hyd.symm)
        · rw [← hfy, if_neg hyid] at hyd
          have hvmem : v ∈ rest.filterMap (·.assinafyDocumentId) :=
            List.mem_filterMap.2 ⟨y0, hy0, hyd⟩
          rw [List.filterMap_cons, hda] at hDocs
          exact (List.nodup_cons.1 hDocs).1 hvmem

/-- Every reachable store keeps internal ids and non-null Assinafy document
ids pairwise distinct. -/
theorem reachable_storeInv {s : List Contract} (h : Reachable s) : StoreInv s := by
  induction h with
  | init => exact ⟨List.nodup_nil, List.nodup_nil⟩
  | create i fn fp u _hr hfresh ih =>
    obtain ⟨hIds, hDocs⟩ := ih
    constructor
    · rw [List.map_append, List.nodup_append]
      refine ⟨hIds, List.nodup_singleton _, ?_⟩
      intro a ha hmem
      obtain ⟨x, hx, hxa⟩ := List.mem_map.1 ha
      have hai : a = i := by simpa [createContract] using hmem
      exact hfresh x hx (hxa.trans hai)
    · rw [List.filterMap_append]
      simpa [createContract] using hDocs
  | submit env fr auth contractId _hr ih =>
    rcases sendToAssinafy_store_shape env fr _ auth contractId with hEq |
      ⟨n, r, c, hF, hTr, hGuard, hEq⟩
    · rw [hEq]; exact ih
    · obtain ⟨hIds, hDocs⟩ := ih
      rw [hEq]
      constructor
      · rw [map_field_invariant (·.id) _ (fun a => by by_cases hia : a.id = n <;> simp [hia])]
        exact hIds
      · refine nodup_filterMap_docId_set n r.id _ (fun x => rfl) _ hIds hDocs ?_
        intro x hx hxn hxd
        have hall := List.any_eq_false.1 hGuard x hx
        rw [Bool.and_eq_true] at hall
        push_neg at hall
        exact hall (by simpa using hxn) (by simpa using hxd)
  | reqSig emailValid env auth contractId signers _hr ih =>
    rcases requestSignatures_store_shape emailValid env _ auth contractId signers with hEq |
      ⟨n, asgId, hEq⟩
    · rw [hEq]; exact ih
    · obtain ⟨hIds, hDocs⟩ := ih
      rw [hEq]
      constructor
      · rw [map_field_invariant (·.id) _ (fun a => by by_cases hia : a.id = n <;> simp [hia])]
        exact hIds
      · rw [filterMap_field_invariant (·.assinafyDocumentId) _
          (fun a => by by_cases hia : a.id = n <;> simp [hia])]
        exact hDocs
  | webhook p now _hr ih =>
    rcases processWebhook_store_shape _ p now with hEq | ⟨cid, ud, hEq⟩
    · rw [hEq]; exact ih
    · obtain ⟨hIds, hDocs⟩ := ih
      rw [hEq]
      constructor
      · rw [updateStore, map_field_invariant (·.id) _
          (fun a => by by_cases hia : a.id = cid <;> simp [hia, applyUpdate_id])]
        exact hIds
      · rw [updateStore, filterMap_field_invariant (·.assinafyDocumentId) _
          (fun a => by by_cases hia : a.id = cid <;> simp [hia, applyUpdate_docId])]
        exact hDocs

/-- A contract whose Assinafy document id is the empty string: non-null, but
falsy for the route's truthiness guard. -/
def emptyIdContract : Contract := { uploadedContract with assinafyDocumentId := some "" }

/-- C10 is false as stated: a contract whose `providerDocumentId` is the
empty string is non-null, yet `send-to-assinafy` does not fail with
`AlreadySubmitted` — the guard `if (contractDetails.assinafyDocumentId)` treats
the empty string as unset — and the stored id is overwritten by the provider's
fresh one. -/
theorem c10_counterexample :
    emptyIdContract.assinafyDocumentId ≠ none ∧
      (sendToAssinafy envHappy (fun _ => true) [emptyIdContract] (some "u1")
        (some 42)).response ≠ .alreadySubmitted ∧
      (sendToAssinafy envHappy (fun _ => true) [emptyIdContract] (some "u1")
        (some 42)).store.map (·.assinafyDocumentId) = [some "doc-9"] := by
  refine ⟨?_, ?_, ?_⟩ <;> decide

/-- C10 (amended): in every reachable store no two contracts share a
(non-null) Assinafy document id; `send-to-assinafy` on a contract whose
`assinafyDocumentId` is non-EMPTY fails with `AlreadySubmitted` and changes
nothing (an empty-string id, though non-null, is treated as unset and may be
overwritten — see the counterexample); and neither the webhook receiver nor
`request-signatures` ever changes any stored document id. -/
theorem c10_doc_id_protected :
    (∀ s, Reachable s → (s.filterMap (·.assinafyDocumentId)).Nodup) ∧
      (∀ (env : ProviderEnv) (fr : String → Bool) (store : List Contract)
          (userId : String) (cid : Nat) (c : Contract) (d : String),
        env.configured = true →
        store.find? (fun x => x.id == cid) = some c →
        c.uploadedByUserId = some userId →
        c.assinafyDocumentId = some d → d ≠ "" →
        (sendToAssinafy env fr store (some userId) (some cid)).response =
            .alreadySubmitted ∧
          (sendToAssinafy env fr store (some userId) (some cid)).store = store) ∧
      (∀ (store : List Contract) (p : JObj) (now : Nat),
        (processWebhook store p now).store.map (·.assinafyDocumentId) =
          store.map (·.assinafyDocumentId)) ∧
      (∀ (emailValid : String → Bool) (env : ProviderEnv) (store : List Contract)
          (auth : Option String) (contractId : Option Nat) (signers : List Signer),
        (requestSignatures emailValid env store auth contractId signers).store.map
            (·.assinafyDocumentId) = store.map (·.assinafyDocumentId)) := by
  refine ⟨fun s hs => (reachable_storeInv hs).2, ?_, ?_, ?_⟩
  · intro env fr store userId cid c d hEnv hF hAuth hDoc hNe
    have hIE : d.isEmpty = false := by
      cases hie : d.isEmpty
      · rfl
      · exact absurd ((String.isEmpty_iff d).1 hie) hNe
    have hTr : strTruthy c.assinafyDocumentId = true := by
      rw [hDoc]
      simp [strTruthy, hIE]
    constructor
    · simp [sendToAssinafy, hEnv, hF, hAuth, hTr]
    · simp [sendToAssinafy, hEnv, hF, hAuth, hTr]
  · intro store p now
    rcases processWebhook_store_shape store p now with hEq | ⟨cid, ud, hEq⟩
    · rw [hEq]
    · rw [hEq, updateStore, map_field_invariant (·.assinafyDocumentId) _
        (fun a => by by_cases hia : a.id = cid <;> simp [hia, applyUpdate_docId])]
  · intro emailValid env store auth contractId signers
    rcases requestSignatures_store_shape emailValid env store auth contractId signers with
      hEq | ⟨n, asgId, hEq⟩
    · rw [hEq]
    · rw [hEq, map_field_invariant (·.assinafyDocumentId) _
        (fun a => by by_cases hia : a.id = n <;> simp [hia])]

end Check
